import Mathlib

/-!
Verification of the normalization + multi-backend rendering pipeline of
node-set-ip-address. The repository ships only a TypeScript declaration file
(src/index.d.ts) describing the public API (configure, restartService) and the
NetworkConfig input record; the pipeline behavior (normalizer, topology
resolver, renderers, apply coordinator) is modelled here from the design
specification and verified against its stated properties.
-/

namespace SetIpAddress

/-- Modelled from the source (src/index.d.ts): a static route entry with a
destination and a gateway. The source field named to is rendered here as
toDest because to is a reserved word in this Lean environment. -/
structure Route where
  toDest : String
  via : String
deriving DecidableEq, Repr

/-- Modelled from the source (src/index.d.ts): bridge options, currently only
the spanning-tree flag. -/
structure BridgeOpts where
  stp : Option Bool
deriving DecidableEq, Repr

/-- Modelled from the source (src/index.d.ts): the nameservers field accepts
either a single delimited string or an array of strings. -/
inductive NameserversField
  | str (s : String)
  | list (l : List String)
deriving DecidableEq, Repr

/-- Modelled from the source (src/index.d.ts): the raw NetworkConfig input
record; every field except the interface name is optional. The source field
named prefix is rendered here as prefixLen because prefix is a reserved word
in Lean. -/
structure NetworkConfig where
  interface : String
  vlanid : Option Nat := none
  ifname : Option String := none
  ip_address : Option String := none
  prefixLen : Option Nat := none
  gateway : Option String := none
  nameservers : Option NameserversField := none
  optional : Option Bool := none
  dhcp : Option Bool := none
  noarp : Option Bool := none
  ppp : Option Bool := none
  manual : Option Bool := none
  routes : Option (List Route) := none
  bridge_ports : Option (List String) := none
  bridge_opts : Option BridgeOpts := none
  provider : Option String := none
  physical_interface : Option String := none
deriving DecidableEq, Repr

/-- Modelled from the spec: the mutually exclusive addressing mode of a
normalized interface. -/
inductive AddressingMode
  | Static
  | Dhcp
  | Manual
  | Ppp
deriving DecidableEq, Repr

/-- Modelled from the spec: the normalized, canonical Config Model of one
interface. -/
structure ConfigModel where
  interface : String
  vlanId : Option Nat
  ifname : String
  addressingMode : AddressingMode
  ipAddress : Option String
  prefixLength : Option Nat
  gateway : Option String
  nameservers : List String
  optional : Bool
  noArp : Bool
  isPpp : Bool
  routes : List Route
  bridgePorts : List String
  bridgeStp : Option Bool
  provider : Option String
  physicalInterface : Option String
deriving DecidableEq, Repr

/-- Modelled from the spec: a validation error carrying the offending field
names and a reason. -/
structure ValidationError where
  fields : List String
  reason : String
deriving DecidableEq, Repr

/-- Modelled from the spec: a topology error naming the interfaces involved in
the unresolvable dependency. -/
structure TopologyError where
  members : List String
deriving DecidableEq, Repr

/-- Interpret an optional boolean field with its documented default false. -/
def boolOpt : Option Bool → Bool
  | some b => b
  | none => false

/-- Split a string at every character satisfying the given delimiter test,
keeping empty tokens; the accumulator holds the characters of the token being
read. -/
def splitCharsAux (isDelim : Char → Bool) : List Char → List Char → List String
  | acc, [] => [String.mk acc]
  | acc, c :: cs =>
    if isDelim c then String.mk acc :: splitCharsAux isDelim [] cs
    else splitCharsAux isDelim (acc ++ [c]) cs

/-- Split a string at every character satisfying the given delimiter test. -/
def splitChars (isDelim : Char → Bool) (s : String) : List String :=
  splitCharsAux isDelim [] s.data

/-- Modelled from the spec: tokenize a delimited nameservers string, splitting
on any run of comma or space characters. -/
def splitNameservers (s : String) : List String :=
  (splitChars (fun c => c == ' ' || c == ',') s).filter fun t => t ≠ ""

/-- Modelled from the spec: the raw token stream of the nameservers field,
before de-duplication, in first-appearance order. -/
def rawNameserverTokens : Option NameserversField → List String
  | none => []
  | some (.str s) => splitNameservers s
  | some (.list l) => (l.map splitNameservers).flatten

/-- Keep the first occurrence of every element, dropping later duplicates; the
first argument records the elements already kept. -/
def dedupFirstAux : List String → List String → List String
  | _, [] => []
  | seen, a :: l =>
    if a ∈ seen then dedupFirstAux seen l
    else a :: dedupFirstAux (a :: seen) l

/-- Keep the first occurrence of every element, dropping later duplicates. -/
def dedupFirst (l : List String) : List String := dedupFirstAux [] l

/-- Modelled from the spec: normalize the nameservers field into a canonical
ordered, de-duplicated list. -/
def normalizeNameservers (ns : Option NameserversField) : List String :=
  dedupFirst (rawNameserverTokens ns)

/-- Modelled from the spec: the resolved interface name, derived as
interface.vlanid for a VLAN when not explicitly overridden. -/
def deriveIfname (spec : NetworkConfig) : String :=
  match spec.ifname with
  | some n => n
  | none =>
    match spec.vlanid with
    | some v => spec.interface ++ "." ++ toString v
    | none => spec.interface

/-- Modelled from the spec: the addressing mode decided once during
normalization (Ppp, then Dhcp, then Static, defaulting to Manual). -/
def deriveMode (spec : NetworkConfig) : AddressingMode :=
  if boolOpt spec.ppp then .Ppp
  else if boolOpt spec.dhcp then .Dhcp
  else if spec.ip_address.isSome then .Static
  else .Manual

/-- Modelled from the spec: the bridge STP flag, defaulting to false when
bridge ports are present. -/
def deriveBridgeStp (spec : NetworkConfig) : Option Bool :=
  match spec.bridge_ports with
  | some (_ :: _) =>
    match spec.bridge_opts with
    | some o => some (boolOpt o.stp)
    | none => some false
  | _ => none

/-- Modelled from the spec: all validation errors of one raw spec, collected
rather than short-circuited, one per offending field combination. -/
def validationErrors (spec : NetworkConfig) : List ValidationError :=
  (if spec.interface = "" then
    [⟨["interface"], "interface is required and must be non-empty"⟩] else [])
  ++ (match spec.vlanid with
      | some v =>
        if 1 ≤ v ∧ v ≤ 4094 then []
        else [⟨["vlanid"], "vlanid must be in the range 1 to 4094"⟩]
      | none => [])
  ++ (if boolOpt spec.dhcp && spec.ip_address.isSome then
      [⟨["dhcp", "ip_address"],
        "dhcp and ip_address are mutually exclusive addressing modes"⟩]
      else [])
  ++ (if boolOpt spec.ppp && (boolOpt spec.dhcp || spec.ip_address.isSome) then
      [⟨["ppp"], "ppp is mutually exclusive with static and dhcp modes"⟩]
      else [])
  ++ (if boolOpt spec.manual &&
        (boolOpt spec.dhcp || spec.ip_address.isSome || boolOpt spec.ppp) then
      [⟨["manual"], "manual is mutually exclusive with other addressing modes"⟩]
      else [])
  ++ (if spec.ip_address.isSome && spec.prefixLen.isNone then
      [⟨["prefixLen"], "ip_address requires a prefix length"⟩] else [])
  ++ (if spec.prefixLen.isSome && spec.ip_address.isNone then
      [⟨["ip_address"], "a prefix length requires an ip_address"⟩] else [])
  ++ (match spec.prefixLen with
      | some p =>
        if p ≤ 32 then []
        else [⟨["prefixLen"], "the prefix length must be in the range 0 to 32"⟩]
      | none => [])
  ++ (match spec.bridge_ports with
      | some ports =>
        if spec.interface ∈ ports then
          [⟨["bridge_ports"], "an interface may not bridge itself"⟩]
        else []
      | none => [])
  ++ (if boolOpt spec.ppp && spec.provider.isNone then
      [⟨["provider"], "ppp requires a provider"⟩] else [])
  ++ (if boolOpt spec.ppp && spec.physical_interface.isNone then
      [⟨["physical_interface"], "ppp requires a physical_interface"⟩] else [])

/-- Modelled from the spec: build the Config Model of a spec that passed
validation. -/
def mkModel (spec : NetworkConfig) : ConfigModel where
  interface := spec.interface
  vlanId := spec.vlanid
  ifname := deriveIfname spec
  addressingMode := deriveMode spec
  ipAddress := spec.ip_address
  prefixLength := spec.prefixLen
  gateway := spec.gateway
  nameservers := normalizeNameservers spec.nameservers
  optional := boolOpt spec.optional
  noArp := boolOpt spec.noarp
  isPpp := boolOpt spec.ppp
  routes := spec.routes.getD []
  bridgePorts := spec.bridge_ports.getD []
  bridgeStp := deriveBridgeStp spec
  provider := spec.provider
  physicalInterface := spec.physical_interface

/-- Modelled from the spec: normalize one raw spec into a Config Model or fail
with the collected validation errors. -/
def normalize (spec : NetworkConfig) : Except (List ValidationError) ConfigModel :=
  if validationErrors spec = [] then .ok (mkModel spec)
  else .error (validationErrors spec)

/-- Modelled from the spec: the dependency relation of the topology graph.
A VLAN depends on its base interface and a bridge depends on each of its
member ports; members and parents must come before dependents. -/
def dependsOn (a b : ConfigModel) : Bool :=
  (a.vlanId.isSome && b.ifname == a.interface) || a.bridgePorts.contains b.ifname

/-- Whether a model has no dependency among the given remaining models. -/
def readyIn (others : List ConfigModel) (m : ConfigModel) : Bool :=
  others.all fun b => !dependsOn m b

/-- Modelled from the spec: scan the remaining models in input order and
extract the first one with no dependency among the others, keeping the order
of the rest. -/
def extractAux : List ConfigModel → List ConfigModel → Option (ConfigModel × List ConfigModel)
  | _, [] => none
  | seen, m :: rest =>
    if readyIn (seen ++ rest) m then some (m, seen ++ rest)
    else extractAux (seen ++ [m]) rest

/-- Extract the first ready model of a batch, in input order. -/
def extractFirstReady (remaining : List ConfigModel) :
    Option (ConfigModel × List ConfigModel) :=
  extractAux [] remaining

/-- Modelled from the spec: the loop of Kahn's algorithm; repeatedly emit the
first ready model, and fail naming the models still blocked when none is
ready. -/
def kahnLoop : Nat → List ConfigModel → List ConfigModel →
    Except TopologyError (List ConfigModel)
  | _, acc, [] => .ok acc.reverse
  | 0, _, r :: rs => .error ⟨(r :: rs).map ConfigModel.ifname⟩
  | Nat.succ n, acc, r :: rs =>
    match extractFirstReady (r :: rs) with
    | none => .error ⟨(r :: rs).map ConfigModel.ifname⟩
    | some (m, left) => kahnLoop n (m :: acc) left

/-- Modelled from the spec: resolve a batch into a topological order of the
dependency graph with ties broken by input order, or fail with a TopologyError
naming the blocked members. -/
def resolve (models : List ConfigModel) : Except TopologyError (List ConfigModel) :=
  kahnLoop models.length [] models

/-- Modelled from the spec: the interface names appearing in a batch. -/
def batchInterfaces (specs : List NetworkConfig) : List String :=
  specs.map NetworkConfig.interface

/-- Modelled from the spec: normalize a whole batch, collecting all validation
errors of every spec before failing, plus the batch-level uniqueness check of
the interface field. -/
def normalizeBatch (specs : List NetworkConfig) :
    Except (List ValidationError) (List ConfigModel) :=
  let errs :=
    (specs.map validationErrors).flatten
    ++ (if (batchInterfaces specs).Nodup then []
        else [⟨["interface"], "interface must be unique within a batch"⟩])
  if errs = [] then .ok (specs.map mkModel) else .error errs

/-- Modelled from the spec: an error of the normalize-then-resolve front of
the pipeline. -/
inductive PipelineError
  | validation (errs : List ValidationError)
  | topology (e : TopologyError)
deriving DecidableEq, Repr

/-- Modelled from the spec: the pure front of the pipeline, normalization of
every spec followed by topology resolution. -/
def normalizeResolve (specs : List NetworkConfig) :
    Except PipelineError (List ConfigModel) :=
  match normalizeBatch specs with
  | .error errs => .error (.validation errs)
  | .ok models =>
    match resolve models with
    | .error e => .error (.topology e)
    | .ok ordered => .ok ordered

/-- Modelled from the spec: a rendered artifact, a logical file path paired
with text content. -/
structure Artifact where
  path : String
  content : String
deriving DecidableEq, Repr

/-- Modelled from the spec: the four supported backends. -/
inductive Backend
  | Netplan
  | Ifupdown
  | Dhcpcd
  | Pppoe
deriving DecidableEq, Repr

/-- The textual word of an addressing mode in an ifupdown stanza. -/
def modeWord : AddressingMode → String
  | .Static => "static"
  | .Dhcp => "dhcp"
  | .Manual => "manual"
  | .Ppp => "ppp"

/-- Modelled from the spec: one interface entry of the netplan YAML document,
keyed by ifname, with dhcp4, addresses, gateway4, nameservers and optional
mapped from the model. -/
def netplanInterfaceBlock (m : ConfigModel) : String :=
  "    " ++ m.ifname ++ ":\n"
  ++ (match m.addressingMode with
      | .Dhcp => "      dhcp4: true\n"
      | _ => "")
  ++ (match m.vlanId with
      | some v => "      id: " ++ toString v ++ "\n      link: " ++ m.interface ++ "\n"
      | none => "")
  ++ (if m.bridgePorts ≠ [] then
      "      interfaces: [" ++ String.intercalate ", " m.bridgePorts ++ "]\n"
      else "")
  ++ (match m.ipAddress, m.prefixLength with
      | some a, some p => "      addresses:\n        - " ++ a ++ "/" ++ toString p ++ "\n"
      | _, _ => "")
  ++ (match m.gateway with
      | some g => "      gateway4: " ++ g ++ "\n"
      | none => "")
  ++ (if m.nameservers ≠ [] then
      "      nameservers:\n        addresses: ["
        ++ String.intercalate ", " m.nameservers ++ "]\n"
      else "")
  ++ (String.join (m.routes.map fun r =>
      "      routes:\n        - to: " ++ r.toDest ++ "\n          via: " ++ r.via ++ "\n"))
  ++ (if m.optional then "      optional: true\n" else "")

/-- One section (ethernets, vlans or bridges) of the netplan document, omitted
when empty. -/
def netplanSection (title : String) (ms : List ConfigModel) : String :=
  if ms = [] then ""
  else "  " ++ title ++ ":\n" ++ String.join (ms.map netplanInterfaceBlock)

/-- Modelled from the spec: the netplan renderer text, one YAML document with
each interface under its stanza. -/
def renderNetplanText (batch : List ConfigModel) : String :=
  "network:\n  version: 2\n"
  ++ netplanSection "ethernets"
      (batch.filter fun m => m.bridgePorts.isEmpty && m.vlanId.isNone)
  ++ netplanSection "vlans"
      (batch.filter fun m => m.bridgePorts.isEmpty && m.vlanId.isSome)
  ++ netplanSection "bridges" (batch.filter fun m => !m.bridgePorts.isEmpty)

/-- Modelled from the spec: one ifupdown stanza per interface, an auto or
allow-hotplug line plus an iface block with the static details. -/
def ifupdownStanza (m : ConfigModel) : String :=
  (if m.optional then "allow-hotplug " else "auto ") ++ m.ifname ++ "\n"
  ++ "iface " ++ m.ifname ++ " inet " ++ modeWord m.addressingMode ++ "\n"
  ++ (match m.ipAddress, m.prefixLength with
      | some a, some p => "  address " ++ a ++ "/" ++ toString p ++ "\n"
      | _, _ => "")
  ++ (match m.gateway with
      | some g => "  gateway " ++ g ++ "\n"
      | none => "")
  ++ (if m.nameservers ≠ [] then
      "  dns-nameservers " ++ String.intercalate " " m.nameservers ++ "\n" else "")
  ++ (if m.bridgePorts ≠ [] then
      "  bridge_ports " ++ String.intercalate " " m.bridgePorts ++ "\n"
      ++ "  bridge_stp " ++ (if m.bridgeStp.getD false then "on" else "off") ++ "\n"
      else "")

/-- Modelled from the spec: one dhcpcd.conf block per interface, with static
address, routers and noarp directives as applicable. -/
def dhcpcdBlock (m : ConfigModel) : String :=
  "interface " ++ m.ifname ++ "\n"
  ++ (match m.ipAddress, m.prefixLength with
      | some a, some p => "static ip_address=" ++ a ++ "/" ++ toString p ++ "\n"
      | _, _ => "")
  ++ (match m.gateway with
      | some g => "static routers=" ++ g ++ "\n"
      | none => "")
  ++ (if m.nameservers ≠ [] then
      "static domain_name_servers=" ++ String.intercalate " " m.nameservers ++ "\n"
      else "")
  ++ (if m.noArp then "noarp\n" else "")

/-- Modelled from the spec: the pppd provider file of one PPP interface. -/
def pppProviderFile (m : ConfigModel) (prov phys : String) : String :=
  "# provider " ++ prov ++ " for " ++ m.ifname ++ "\nplugin rp-pppoe.so\n"
  ++ "nic-" ++ phys ++ "\n"

/-- Modelled from the spec: render a resolved batch for one backend into
artifacts; the PPPoE renderer re-asserts defensively that provider and
physical_interface are present on PPP models. -/
def render (b : Backend) (batch : List ConfigModel) : Except String (List Artifact) :=
  match b with
  | .Netplan => .ok [⟨"netplan/config.yaml", renderNetplanText batch⟩]
  | .Ifupdown =>
    .ok (batch.map fun m => ⟨"interfaces.d/" ++ m.ifname, ifupdownStanza m⟩)
  | .Dhcpcd => .ok [⟨"dhcpcd.conf", String.join (batch.map dhcpcdBlock)⟩]
  | .Pppoe =>
    if (batch.filter fun m => m.isPpp).all
        (fun m => m.provider.isSome && m.physicalInterface.isSome) then
      .ok ((batch.filter fun m => m.isPpp).map fun m =>
        ⟨"ppp/peers/" ++ m.provider.getD "",
          pppProviderFile m (m.provider.getD "") (m.physicalInterface.getD "")⟩)
    else .error "ppp model missing provider or physical_interface"

/-- Modelled from the spec: the external collaborators of the apply
coordinator, a write operation that may fail per artifact and a service
restart that may fail. -/
structure Collaborators where
  writeOk : String → String → Bool
  restartOk : Bool

/-- Modelled from the spec: the structured error of a configure call. -/
inductive ConfigureError
  | validation (errs : List ValidationError)
  | topology (e : TopologyError)
  | unsupported (msg : String)
  | io (failedPath : String) (written : List Artifact)
  | serviceRestart (written : List Artifact)
deriving DecidableEq, Repr

/-- Modelled from the spec: the externally observable side effects of one
configure call, the artifacts handed to the writer and the number of restart
invocations. -/
structure Effects where
  written : List Artifact
  restartCalls : Nat
deriving DecidableEq, Repr

/-- Modelled from the spec: write artifacts in order, aborting the remaining
writes at the first failure but keeping those already written; returns the
written artifacts and the failing path, if any. -/
def writeAll (c : Collaborators) : List Artifact → List Artifact × Option String
  | [] => ([], none)
  | a :: rest =>
    if c.writeOk a.path a.content then
      let r := writeAll c rest
      (a :: r.1, r.2)
    else ([], some a.path)

/-- Modelled from the spec: the apply coordinator. Normalize every spec,
resolve topology, render for the selected backend, hand each artifact to the
writer, and on all writes succeeding invoke the restart collaborator once;
failures before rendering cause no side effect, and a restart failure leaves
the written artifacts in place. -/
def configure (b : Backend) (c : Collaborators) (specs : List NetworkConfig) :
    Except ConfigureError Unit × Effects :=
  match normalizeBatch specs with
  | .error errs => (.error (.validation errs), ⟨[], 0⟩)
  | .ok models =>
    match resolve models with
    | .error e => (.error (.topology e), ⟨[], 0⟩)
    | .ok ordered =>
      match render b ordered with
      | .error msg => (.error (.unsupported msg), ⟨[], 0⟩)
      | .ok arts =>
        match writeAll c arts with
        | (written, some p) => (.error (.io p written), ⟨written, 0⟩)
        | (written, none) =>
          if c.restartOk then (.ok (), ⟨written, 1⟩)
          else (.error (.serviceRestart written), ⟨written, 1⟩)

/-- Modelled from the spec: the independently exposed restart operation, so a
caller may retry the restart alone after a restart failure. -/
def restartService (c : Collaborators) : Except ConfigureError Unit :=
  if c.restartOk then .ok () else .error (.serviceRestart [])

/-- The lines of an emitted YAML document. -/
def yamlLines (s : String) : List String := splitChars (fun c => c == '\n') s

/-- Whether a line starts with the given marker. -/
def lineStartsWith (marker line : String) : Bool := marker.data.isPrefixOf line.data

/-- The line with its first n characters removed. -/
def lineDrop (line : String) (n : Nat) : String := String.mk (line.data.drop n)

/-- Recover the address entries of an emitted netplan document: the list items
nested under an addresses key. -/
def parseNetplanAddresses (yaml : String) : List String :=
  (yamlLines yaml).filterMap fun line =>
    if lineStartsWith "        - " line then some (lineDrop line 10) else none

/-- Recover the first gateway4 entry of an emitted netplan document. -/
def parseNetplanGateway (yaml : String) : Option String :=
  ((yamlLines yaml).filterMap fun line =>
    if lineStartsWith "      gateway4: " line then some (lineDrop line 16)
    else none).head?

/-! ### Helper lemmas about normalization -/

theorem normalize_ok_eq {spec : NetworkConfig} {m : ConfigModel}
    (hok : normalize spec = .ok m) : m = mkModel spec := by
  rw [normalize] at hok
  by_cases h : validationErrors spec = []
  · rw [if_pos h] at hok
    exact (Except.ok.inj hok).symm
  · rw [if_neg h] at hok
    exact Except.noConfusion hok

theorem mem_dedupFirstAux (x : String) : ∀ (l seen : List String),
    x ∈ dedupFirstAux seen l ↔ x ∈ l ∧ x ∉ seen := by
  intro l
  induction l with
  | nil =>
    intro seen
    simp [dedupFirstAux]
  | cons a l ih =>
    intro seen
    rw [dedupFirstAux]
    by_cases h : a ∈ seen
    · rw [if_pos h, ih seen]
      by_cases hx : x = a
      · subst hx
        simp [h]
      · simp [hx]
    · rw [if_neg h]
      by_cases hx : x = a
      · subst hx
        simp [h]
      · simp only [List.mem_cons, hx, false_or, ih (a :: seen)]

theorem nodup_dedupFirstAux : ∀ (l seen : List String),
    (dedupFirstAux seen l).Nodup := by
  intro l
  induction l with
  | nil =>
    intro seen
    simp [dedupFirstAux]
  | cons a l ih =>
    intro seen
    rw [dedupFirstAux]
    by_cases h : a ∈ seen
    · rw [if_pos h]
      exact ih seen
    · rw [if_neg h]
      refine List.nodup_cons.mpr ⟨?_, ih (a :: seen)⟩
      intro hmem
      exact ((mem_dedupFirstAux a l (a :: seen)).mp hmem).2 (List.mem_cons_self a seen)

theorem sublist_dedupFirstAux : ∀ (l seen : List String),
    (dedupFirstAux seen l).Sublist l := by
  intro l
  induction l with
  | nil =>
    intro seen
    simp [dedupFirstAux]
  | cons a l ih =>
    intro seen
    rw [dedupFirstAux]
    by_cases h : a ∈ seen
    · rw [if_pos h]
      exact List.Sublist.cons a (ih seen)
    · rw [if_neg h]
      exact List.Sublist.cons₂ a (ih (a :: seen))

theorem mem_dedupFirst (x : String) (l : List String) :
    x ∈ dedupFirst l ↔ x ∈ l := by
  rw [dedupFirst, mem_dedupFirstAux]
  simp

theorem nodup_dedupFirst (l : List String) : (dedupFirst l).Nodup :=
  nodup_dedupFirstAux l []

theorem dedupFirst_sublist (l : List String) : (dedupFirst l).Sublist l :=
  sublist_dedupFirstAux l []

/-! ### Claim theorems on the Normalizer -/

/-- C1: a spec with both dhcp true and ip_address set fails normalization with
a ValidationError naming both offending fields; an addressing mode is never
silently selected. -/
theorem normalize_dhcp_ip_conflict (spec : NetworkConfig) (a : String)
    (hd : spec.dhcp = some true) (hi : spec.ip_address = some a) :
    ∃ errs, normalize spec = .error errs ∧
      ∃ e ∈ errs, "dhcp" ∈ e.fields ∧ "ip_address" ∈ e.fields := by
  have hmem : (⟨["dhcp", "ip_address"],
      "dhcp and ip_address are mutually exclusive addressing modes"⟩ :
        ValidationError) ∈ validationErrors spec := by
    simp [validationErrors, hd, hi, boolOpt]
  have hne : validationErrors spec ≠ [] := by
    intro h
    rw [h] at hmem
    exact List.not_mem_nil _ hmem
  refine ⟨validationErrors spec, ?_, ⟨_, hmem, by simp, by simp⟩⟩
  rw [normalize, if_neg hne]

/-- Witness for C1 at a concrete conflicting spec. -/
theorem normalize_dhcp_ip_conflict_witness :
    ∃ errs, normalize
        { interface := "eth0", dhcp := some true, ip_address := some "10.0.0.2",
          prefixLen := some 24 } = .error errs ∧
      ∃ e ∈ errs, "dhcp" ∈ e.fields ∧ "ip_address" ∈ e.fields :=
  normalize_dhcp_ip_conflict
    { interface := "eth0", dhcp := some true, ip_address := some "10.0.0.2",
      prefixLen := some 24 } "10.0.0.2" rfl rfl

/-- C3: when vlanid is present and ifname is not explicitly overridden, the
normalized ifname is the base interface name, a dot, and the VLAN id; in
particular interface eth0 with vlanid 10 normalizes to ifname eth0.10. -/
theorem normalize_vlan_ifname :
    (∀ (spec : NetworkConfig) (v : Nat) (m : ConfigModel),
        spec.vlanid = some v → spec.ifname = none → normalize spec = .ok m →
        m.ifname = spec.interface ++ "." ++ toString v)
    ∧ ∃ m, normalize { interface := "eth0", vlanid := some 10 } = .ok m
        ∧ m.ifname = "eth0.10" := by
  constructor
  · intro spec v m hv hn hok
    rw [normalize_ok_eq hok]
    show deriveIfname spec = _
    rw [deriveIfname, hn, hv]
  · exact ⟨mkModel { interface := "eth0", vlanid := some 10 }, by rfl, by rfl⟩

/-- Witness for C3 at a concrete VLAN spec. -/
theorem normalize_vlan_ifname_witness :
    (mkModel { interface := "eth0", vlanid := some 10, ifname := none } :
        ConfigModel).ifname = "eth0" ++ "." ++ toString 10 :=
  normalize_vlan_ifname.1 { interface := "eth0", vlanid := some 10, ifname := none }
    10 (mkModel { interface := "eth0", vlanid := some 10, ifname := none })
    rfl rfl (by rfl)

/-- C8: the normalized nameservers list is de-duplicated and preserves the
first-occurrence order of the raw tokens of the input field, whether the field
was a delimited string or a sequence of strings. -/
theorem normalize_nameservers_dedup_ordered (spec : NetworkConfig) (m : ConfigModel)
    (hok : normalize spec = .ok m) :
    m.nameservers.Nodup
    ∧ m.nameservers.Sublist (rawNameserverTokens spec.nameservers)
    ∧ ∀ x, x ∈ m.nameservers ↔ x ∈ rawNameserverTokens spec.nameservers := by
  rw [normalize_ok_eq hok]
  show (normalizeNameservers spec.nameservers).Nodup ∧ _ ∧ _
  rw [normalizeNameservers]
  exact ⟨nodup_dedupFirst _, dedupFirst_sublist _, fun x => mem_dedupFirst x _⟩

/-- Modelled from the spec: a demonstration spec whose nameservers string
holds a duplicate token. -/
def nsDemoSpec : NetworkConfig :=
  { interface := "eth0", nameservers := some (.str "8.8.8.8, 1.1.1.1 8.8.8.8") }

/-- Witness for C8 at a concrete spec whose nameservers string holds a
duplicate. -/
theorem normalize_nameservers_dedup_ordered_witness :
    (mkModel nsDemoSpec).nameservers.Nodup
    ∧ (mkModel nsDemoSpec).nameservers.Sublist
        (rawNameserverTokens nsDemoSpec.nameservers)
    ∧ ∀ x, x ∈ (mkModel nsDemoSpec).nameservers ↔
        x ∈ rawNameserverTokens nsDemoSpec.nameservers :=
  normalize_nameservers_dedup_ordered nsDemoSpec (mkModel nsDemoSpec) (by rfl)

/-! ### Helper lemmas about the topology resolver -/

theorem extractAux_perm : ∀ (l seen : List ConfigModel) (m : ConfigModel)
    (left : List ConfigModel), extractAux seen l = some (m, left) →
    (m :: left).Perm (seen ++ l) := by
  intro l
  induction l with
  | nil =>
    intro seen m left h
    exact absurd h (by simp [extractAux])
  | cons a rest ih =>
    intro seen m left h
    rw [extractAux] at h
    by_cases hr : readyIn (seen ++ rest) a = true
    · rw [if_pos hr] at h
      obtain ⟨h1, h2⟩ := Prod.mk.injEq .. ▸ Option.some.inj h
      subst h1
      subst h2
      exact List.perm_middle.symm
    · rw [if_neg hr] at h
      have := ih (seen ++ [a]) m left h
      simpa [List.append_assoc] using this

theorem extractAux_ready : ∀ (l seen : List ConfigModel) (m : ConfigModel)
    (left : List ConfigModel), extractAux seen l = some (m, left) →
    readyIn left m = true := by
  intro l
  induction l with
  | nil =>
    intro seen m left h
    exact absurd h (by simp [extractAux])
  | cons a rest ih =>
    intro seen m left h
    rw [extractAux] at h
    by_cases hr : readyIn (seen ++ rest) a = true
    · rw [if_pos hr] at h
      obtain ⟨h1, h2⟩ := Prod.mk.injEq .. ▸ Option.some.inj h
      subst h1
      subst h2
      exact hr
    · rw [if_neg hr] at h
      exact ih (seen ++ [a]) m left h

theorem readyIn_no_dep {left : List ConfigModel} {m : ConfigModel}
    (h : readyIn left m = true) : ∀ b ∈ left, dependsOn m b = false := by
  intro b hb
  have := List.all_eq_true.mp h b hb
  simpa using this

theorem kahnLoop_ok_sound : ∀ (fuel : Nat) (acc remaining out : List ConfigModel),
    kahnLoop fuel acc remaining = .ok out →
    acc.reverse.Pairwise (fun a b => dependsOn a b = false) →
    (∀ a ∈ acc, ∀ b ∈ remaining, dependsOn a b = false) →
    out.Perm (acc ++ remaining) ∧
      out.Pairwise (fun a b => dependsOn a b = false) := by
  intro fuel
  induction fuel with
  | zero =>
    intro acc remaining out h hp hcross
    cases remaining with
    | nil =>
      rw [kahnLoop] at h
      obtain rfl := Except.ok.inj h
      exact ⟨by rw [List.append_nil]; exact acc.reverse_perm, hp⟩
    | cons r rs =>
      rw [kahnLoop] at h
      exact Except.noConfusion h
  | succ n ih =>
    intro acc remaining out h hp hcross
    cases remaining with
    | nil =>
      rw [kahnLoop] at h
      obtain rfl := Except.ok.inj h
      exact ⟨by rw [List.append_nil]; exact acc.reverse_perm, hp⟩
    | cons r rs =>
      rw [kahnLoop] at h
      cases hx : extractFirstReady (r :: rs) with
      | none =>
        rw [hx] at h
        exact Except.noConfusion h
      | some pr =>
        obtain ⟨m, left⟩ := pr
        rw [hx] at h
        have hperm : (m :: left).Perm (r :: rs) := by
          simpa using extractAux_perm (r :: rs) [] m left hx
        have hready := extractAux_ready (r :: rs) [] m left hx
        have hm_mem : m ∈ r :: rs := hperm.mem_iff.mp (List.mem_cons_self m left)
        have hleft_sub : ∀ b ∈ left, b ∈ r :: rs := fun b hb =>
          hperm.mem_iff.mp (List.mem_cons_of_mem m hb)
        have hp' : (m :: acc).reverse.Pairwise (fun a b => dependsOn a b = false) := by
          rw [List.reverse_cons, List.pairwise_append]
          refine ⟨hp, List.pairwise_singleton _ m, ?_⟩
          intro a ha b hb
          rw [List.mem_singleton] at hb
          rw [hb]
          exact hcross a (List.mem_reverse.mp ha) m hm_mem
        have hcross' : ∀ a ∈ m :: acc, ∀ b ∈ left, dependsOn a b = false := by
          intro a ha b hb
          rcases List.mem_cons.mp ha with rfl | ha'
          · exact readyIn_no_dep hready b hb
          · exact hcross a ha' b (hleft_sub b hb)
        obtain ⟨hpm, hpw⟩ := ih (m :: acc) left out h hp' hcross'
        refine ⟨?_, hpw⟩
        have h1 : out.Perm (m :: (acc ++ left)) := by
          rw [← List.cons_append]
          exact hpm
        have h2 : (m :: (acc ++ left)).Perm (acc ++ m :: left) :=
          List.perm_middle.symm
        have h3 : (acc ++ m :: left).Perm (acc ++ r :: rs) :=
          List.Perm.append_left acc hperm
        exact h1.trans (h2.trans h3)

theorem kahnLoop_indep : ∀ (remaining : List ConfigModel) (fuel : Nat)
    (acc : List ConfigModel), remaining.length ≤ fuel →
    (∀ a ∈ remaining, ∀ b ∈ remaining, dependsOn a b = false) →
    kahnLoop fuel acc remaining = .ok (acc.reverse ++ remaining) := by
  intro remaining
  induction remaining with
  | nil =>
    intro fuel acc _ _
    cases fuel <;> rw [kahnLoop] <;> simp
  | cons r rs ih =>
    intro fuel acc hf hind
    cases fuel with
    | zero => exact absurd hf (by simp)
    | succ n =>
      have hready : readyIn ([] ++ rs) r = true := by
        rw [readyIn, List.all_eq_true]
        intro b hb
        have := hind r (List.mem_cons_self r rs) b (List.mem_cons_of_mem r (by simpa using hb))
        simp [this]
      have hx : extractFirstReady (r :: rs) = some (r, rs) := by
        rw [extractFirstReady, extractAux, if_pos hready, List.nil_append]
      rw [kahnLoop, hx]
      have hrec := ih n (r :: acc) (by simpa using Nat.lt_succ_iff.mp (Nat.lt_of_lt_of_le (by simp) hf))
        (fun a ha b hb => hind a (List.mem_cons_of_mem r ha) b (List.mem_cons_of_mem r hb))
      simpa [List.append_assoc] using hrec

theorem kahnLoop_cycle : ∀ (fuel : Nat) (acc remaining S : List ConfigModel),
    S ≠ [] →
    (∀ x ∈ S, x ∈ remaining) →
    (∀ x ∈ S, ∃ y ∈ S, y ≠ x ∧ dependsOn x y = true) →
    ∃ e, kahnLoop fuel acc remaining = .error e ∧
      ∀ x ∈ S, x.ifname ∈ e.members := by
  intro fuel
  induction fuel with
  | zero =>
    intro acc remaining S hne hsub hsucc
    cases remaining with
    | nil =>
      obtain ⟨x, hx⟩ := List.exists_mem_of_ne_nil S hne
      exact absurd (hsub x hx) (List.not_mem_nil x)
    | cons r rs =>
      rw [kahnLoop]
      exact ⟨_, rfl, fun x hx => List.mem_map_of_mem _ (hsub x hx)⟩
  | succ n ih =>
    intro acc remaining S hne hsub hsucc
    cases remaining with
    | nil =>
      obtain ⟨x, hx⟩ := List.exists_mem_of_ne_nil S hne
      exact absurd (hsub x hx) (List.not_mem_nil x)
    | cons r rs =>
      rw [kahnLoop]
      cases hx : extractFirstReady (r :: rs) with
      | none =>
        exact ⟨_, rfl, fun x hxS => List.mem_map_of_mem _ (hsub x hxS)⟩
      | some pr =>
        obtain ⟨m, left⟩ := pr
        have hperm : (m :: left).Perm (r :: rs) := by
          simpa using extractAux_perm (r :: rs) [] m left hx
        have hready := extractAux_ready (r :: rs) [] m left hx
        have hmS : m ∉ S := by
          intro hm
          obtain ⟨y, hyS, hyne, hdep⟩ := hsucc m hm
          have hy_left : y ∈ left := by
            rcases List.mem_cons.mp (hperm.mem_iff.mpr (hsub y hyS)) with h' | h'
            · exact absurd h' hyne
            · exact h'
          rw [readyIn_no_dep hready y hy_left] at hdep
          exact Bool.noConfusion hdep
        exact ih (m :: acc) left S hne
          (fun x hxS => by
            rcases List.mem_cons.mp (hperm.mem_iff.mpr (hsub x hxS)) with h' | h'
            · exact absurd (h' ▸ hxS) hmS
            · exact h')
          hsucc

/-- Modelled from the spec: a dependency cycle among a batch, at least two
distinct models each depending on the next with the last depending on the
first, as in two bridges each listing the other as a port. -/
def IsDepCycle (models : List ConfigModel) (a : ConfigModel)
    (rest : List ConfigModel) : Prop :=
  rest ≠ [] ∧ (a :: rest).Nodup ∧ (∀ x ∈ a :: rest, x ∈ models) ∧
  List.Chain (fun u v => dependsOn u v = true) a rest ∧
  dependsOn ((a :: rest).getLast (List.cons_ne_nil a rest)) a = true

instance isDepCycleDecidable (models : List ConfigModel) (a : ConfigModel)
    (rest : List ConfigModel) : Decidable (IsDepCycle models a rest) := by
  unfold IsDepCycle
  infer_instance

theorem chain_succ_aux : ∀ (l : List ConfigModel) (x : ConfigModel),
    List.Chain (fun u v => dependsOn u v = true) x l →
    (x :: l).Nodup →
    ∀ z ∈ x :: l, z = (x :: l).getLast (List.cons_ne_nil x l) ∨
      ∃ y ∈ x :: l, dependsOn z y = true ∧ y ≠ z := by
  intro l
  induction l with
  | nil =>
    intro x _ _ z hz
    left
    rw [List.mem_singleton] at hz
    subst hz
    rfl
  | cons w l' ih =>
    intro x hchain hnodup z hz
    rw [List.chain_cons] at hchain
    have hxw : x ≠ w := by
      intro h
      have := (List.nodup_cons.mp hnodup).1
      exact this (h ▸ List.mem_cons_self w l')
    rcases List.mem_cons.mp hz with rfl | hz'
    · right
      exact ⟨w, List.mem_cons_of_mem z (List.mem_cons_self w l'), hchain.1, hxw.symm⟩
    · rcases ih w hchain.2 (List.nodup_cons.mp hnodup).2 z hz' with hlast | ⟨y, hy, hdep, hne⟩
      · left
        rw [List.getLast_cons (List.cons_ne_nil w l')]
        exact hlast
      · right
        exact ⟨y, List.mem_cons_of_mem x hy, hdep, hne⟩

theorem cycle_succ {models : List ConfigModel} {a : ConfigModel}
    {rest : List ConfigModel} (h : IsDepCycle models a rest) :
    ∀ x ∈ a :: rest, ∃ y ∈ a :: rest, y ≠ x ∧ dependsOn x y = true := by
  obtain ⟨hne, hnd, _, hchain, hlast⟩ := h
  intro x hx
  rcases chain_succ_aux rest a hchain hnd x hx with hl | ⟨y, hy, hdep, hyne⟩
  · have hglast : (a :: rest).getLast (List.cons_ne_nil a rest) ∈ rest := by
      cases rest with
      | nil => exact absurd rfl hne
      | cons b bs =>
        rw [List.getLast_cons (List.cons_ne_nil b bs)]
        exact List.getLast_mem (List.cons_ne_nil b bs)
    refine ⟨a, List.mem_cons_self a rest, ?_, by rw [hl]; exact hlast⟩
    intro heq
    apply (List.nodup_cons.mp hnd).1
    rw [heq, hl]
    exact hglast
  · exact ⟨y, hy, hyne, hdep⟩

/-! ### Claim theorem on the Topology Resolver -/

/-- C4: a successful resolve returns a permutation of the batch in which no
model precedes one of its dependencies (bridges after their ports, VLANs after
their base); a batch of fully independent models is returned in its original
input order; and a dependency cycle makes resolve fail with a TopologyError
naming the cycle members. -/
theorem resolve_topological_order :
    (∀ models out, resolve models = .ok out →
        out.Perm models ∧ out.Pairwise (fun a b => dependsOn a b = false))
    ∧ (∀ models, (∀ a ∈ models, ∀ b ∈ models, dependsOn a b = false) →
        resolve models = .ok models)
    ∧ (∀ models a rest, IsDepCycle models a rest →
        ∃ e, resolve models = .error e ∧
          ∀ x ∈ a :: rest, x.ifname ∈ e.members) := by
  refine ⟨?_, ?_, ?_⟩
  · intro models out h
    have := kahnLoop_ok_sound models.length [] models out h (by simp) (by simp)
    simpa using this
  · intro models hind
    have := kahnLoop_indep models models.length [] (Nat.le_refl _) hind
    simpa using this
  · intro models a rest h
    exact kahnLoop_cycle models.length [] models (a :: rest)
      (List.cons_ne_nil a rest) h.2.2.1 (cycle_succ h)

/-- Modelled from the spec: a demonstration model of a plain ethernet
interface. -/
def ethDemo : ConfigModel := mkModel { interface := "eth0" }

/-- Modelled from the spec: a demonstration bridge listing br1 as a port. -/
def br0Demo : ConfigModel := mkModel { interface := "br0", bridge_ports := some ["br1"] }

/-- Modelled from the spec: a demonstration bridge listing br0 as a port. -/
def br1Demo : ConfigModel := mkModel { interface := "br1", bridge_ports := some ["br0"] }

/-- Witness for C4: the soundness and input-order parts at a singleton batch,
and the cycle part at the two mutually bridging bridges. -/
theorem resolve_topological_order_witness :
    ([ethDemo].Perm [ethDemo]
      ∧ [ethDemo].Pairwise (fun a b => dependsOn a b = false))
    ∧ resolve [ethDemo] = .ok [ethDemo]
    ∧ ∃ e, resolve [br0Demo, br1Demo] = .error e ∧
        ∀ x ∈ br0Demo :: [br1Demo], x.ifname ∈ e.members :=
  ⟨resolve_topological_order.1 [ethDemo] [ethDemo] (by rfl),
   resolve_topological_order.2.1 [ethDemo] (by decide),
   resolve_topological_order.2.2 [br0Demo, br1Demo] br0Demo [br1Demo]
     ⟨List.cons_ne_nil br1Demo [], by decide, fun x hx => hx,
      List.Chain.cons (by rfl) List.Chain.nil, by rfl⟩⟩

/-! ### Claim theorems on the pipeline, renderers and Apply Coordinator -/

/-- C5: the composition of per-spec normalization and topology resolution is a
pure function of the input batch: identical specs in identical order always
yield identical output sequences, in order and in content. -/
theorem normalizeResolve_deterministic (specs1 specs2 : List NetworkConfig)
    (h : specs1 = specs2) :
    normalizeResolve specs1 = normalizeResolve specs2 := by
  rw [h]

/-- Witness for C5 at a concrete batch. -/
theorem normalizeResolve_deterministic_witness :
    normalizeResolve [{ interface := "eth0", dhcp := some true }] =
      normalizeResolve [{ interface := "eth0", dhcp := some true }] :=
  normalizeResolve_deterministic _ _ rfl

/-- C6: every backend renderer is a pure, deterministic function from a
resolved batch to a list of artifacts, each a logical-file-path and
text-content pair; rendering the same batch twice is byte-identical. -/
theorem render_deterministic (b1 b2 : Backend) (batch1 batch2 : List ConfigModel)
    (hb : b1 = b2) (hbatch : batch1 = batch2) :
    render b1 batch1 = render b2 batch2 := by
  rw [hb, hbatch]

/-- Witness for C6 at a concrete backend and batch. -/
theorem render_deterministic_witness :
    render Backend.Ifupdown [ethDemo] = render Backend.Ifupdown [ethDemo] :=
  render_deterministic Backend.Ifupdown Backend.Ifupdown [ethDemo] [ethDemo] rfl rfl

/-- Modelled from the spec: the Static-mode round-trip demonstration spec. -/
def c7spec : NetworkConfig :=
  { interface := "eth0", ip_address := some "192.168.1.10", prefixLen := some 24,
    gateway := some "192.168.1.1" }

/-- C7: the Static-mode spec with ip_address 192.168.1.10, prefix 24 and
gateway 192.168.1.1 normalizes successfully, and parsing the YAML emitted by
the netplan renderer recovers the address entry 192.168.1.10/24 and the
gateway entry 192.168.1.1. -/
theorem netplan_static_round_trip :
    normalize c7spec = .ok (mkModel c7spec)
    ∧ (mkModel c7spec).addressingMode = AddressingMode.Static
    ∧ render Backend.Netplan [mkModel c7spec] =
        .ok [⟨"netplan/config.yaml", renderNetplanText [mkModel c7spec]⟩]
    ∧ parseNetplanAddresses (renderNetplanText [mkModel c7spec]) =
        ["192.168.1.10/24"]
    ∧ parseNetplanGateway (renderNetplanText [mkModel c7spec]) =
        some "192.168.1.1" := by
  exact ⟨by rfl, by rfl, by rfl, by decide, by decide⟩

/-- C2: if batch normalization or topology resolution fails, configure
performs no side effect: no artifact is handed to the write collaborator, the
restart collaborator is not invoked, and the call reports an error. -/
theorem configure_aborts_before_side_effects (b : Backend) (c : Collaborators)
    (specs : List NetworkConfig)
    (h : (∃ errs, normalizeBatch specs = .error errs)
      ∨ ∃ models e, normalizeBatch specs = .ok models ∧ resolve models = .error e) :
    (configure b c specs).2.written = []
    ∧ (configure b c specs).2.restartCalls = 0
    ∧ ∃ err, (configure b c specs).1 = .error err := by
  rcases h with ⟨errs, herrs⟩ | ⟨models, e, hok, herr⟩
  · simp [configure, herrs]
  · simp [configure, hok, herr]

/-- Modelled from the spec: a collaborator pair whose writes and restart all
succeed. -/
def okCollab : Collaborators := ⟨fun _ _ => true, true⟩

/-- Witness for C2 at a concrete batch whose single spec fails validation. -/
theorem configure_aborts_before_side_effects_witness :
    (configure Backend.Ifupdown okCollab
        [{ interface := "eth0", dhcp := some true,
           ip_address := some "10.0.0.2" }]).2.written = []
    ∧ (configure Backend.Ifupdown okCollab
        [{ interface := "eth0", dhcp := some true,
           ip_address := some "10.0.0.2" }]).2.restartCalls = 0
    ∧ ∃ err, (configure Backend.Ifupdown okCollab
        [{ interface := "eth0", dhcp := some true,
           ip_address := some "10.0.0.2" }]).1 = .error err :=
  configure_aborts_before_side_effects Backend.Ifupdown okCollab
    [{ interface := "eth0", dhcp := some true, ip_address := some "10.0.0.2" }]
    (Or.inl ⟨_, rfl⟩)

theorem writeAll_all_ok (c : Collaborators) : ∀ (arts : List Artifact),
    (∀ a ∈ arts, c.writeOk a.path a.content = true) →
    writeAll c arts = (arts, none) := by
  intro arts
  induction arts with
  | nil =>
    intro _
    rfl
  | cons a rest ih =>
    intro h
    rw [writeAll, if_pos (h a (List.mem_cons_self a rest)),
      ih (fun x hx => h x (List.mem_cons_of_mem a hx))]

/-- C9: when the pipeline succeeds, all artifact writes succeed and the
restart fails, configure rejects with a ServiceRestartError distinct from
write errors, the artifacts already written are not rolled back, and the
restart can afterwards be retried alone through restartService. -/
theorem configure_restart_failure_distinct_no_rollback (b : Backend)
    (c : Collaborators) (specs : List NetworkConfig)
    (models ordered : List ConfigModel) (arts : List Artifact)
    (h1 : normalizeBatch specs = .ok models)
    (h2 : resolve models = .ok ordered)
    (h3 : render b ordered = .ok arts)
    (h4 : ∀ a ∈ arts, c.writeOk a.path a.content = true)
    (h5 : c.restartOk = false) :
    (configure b c specs).1 = .error (.serviceRestart arts)
    ∧ (configure b c specs).2.written = arts
    ∧ (configure b c specs).2.restartCalls = 1
    ∧ (∀ p w, ConfigureError.serviceRestart arts ≠ ConfigureError.io p w)
    ∧ ∀ c2 : Collaborators, c2.restartOk = true → restartService c2 = .ok () := by
  have hw := writeAll_all_ok c arts h4
  refine ⟨?_, ?_, ?_, fun p w hpw => ConfigureError.noConfusion hpw, ?_⟩
  · simp [configure, h1, h2, h3, hw, h5]
  · simp [configure, h1, h2, h3, hw, h5]
  · simp [configure, h1, h2, h3, hw, h5]
  · intro c2 hc2
    simp [restartService, hc2]

/-- Modelled from the spec: the end-to-end demonstration spec, a single DHCP
ethernet interface. -/
def dhcpDemoSpec : NetworkConfig := { interface := "eth0", dhcp := some true }

/-- Modelled from the spec: the single interfaces.d artifact rendered for the
DHCP demonstration spec by the ifupdown backend. -/
def dhcpDemoArts : List Artifact :=
  [⟨"interfaces.d/eth0", ifupdownStanza (mkModel dhcpDemoSpec)⟩]

/-- Modelled from the spec: a collaborator pair whose writes succeed but whose
restart fails. -/
def failRestartCollab : Collaborators := ⟨fun _ _ => true, false⟩

/-- Witness for C9 at the end-to-end DHCP scenario against the ifupdown
backend with a failing restart. -/
theorem configure_restart_failure_distinct_no_rollback_witness :
    (configure Backend.Ifupdown failRestartCollab [dhcpDemoSpec]).1 =
        .error (.serviceRestart dhcpDemoArts)
    ∧ (configure Backend.Ifupdown failRestartCollab [dhcpDemoSpec]).2.written =
        dhcpDemoArts
    ∧ (configure Backend.Ifupdown failRestartCollab [dhcpDemoSpec]).2.restartCalls = 1
    ∧ (∀ p w, ConfigureError.serviceRestart dhcpDemoArts ≠ ConfigureError.io p w)
    ∧ ∀ c2 : Collaborators, c2.restartOk = true → restartService c2 = .ok () :=
  configure_restart_failure_distinct_no_rollback Backend.Ifupdown failRestartCollab
    [dhcpDemoSpec] [mkModel dhcpDemoSpec] [mkModel dhcpDemoSpec] dhcpDemoArts
    rfl rfl rfl (fun _ _ => rfl) rfl

/-- C10: a successful configure resolves with no value, and so does a
successful restartService; the success result carries no per-artifact or
per-interface report. -/
theorem configure_success_is_void (b : Backend) (c : Collaborators)
    (specs : List NetworkConfig) (u : Unit)
    (h : (configure b c specs).1 = .ok u) :
    (configure b c specs).1 = .ok ()
    ∧ ∀ (c2 : Collaborators) (v : Unit), restartService c2 = .ok v →
        restartService c2 = .ok () := by
  constructor
  · rw [h]
  · intro c2 v h2
    rw [h2]

/-- Witness for C10 at a concrete successful configure call. -/
theorem configure_success_is_void_witness :
    (configure Backend.Ifupdown okCollab [dhcpDemoSpec]).1 = .ok ()
    ∧ ∀ (c2 : Collaborators) (v : Unit), restartService c2 = .ok v →
        restartService c2 = .ok () :=
  configure_success_is_void Backend.Ifupdown okCollab [dhcpDemoSpec] () rfl

end SetIpAddress
